import Mathlib

/-!
Verification of the godax Coinbase Pro client (pkg/godax) against its
natural-language specification.  The Go source under pkg/godax is embedded
shallowly: pure helpers become Lean functions, the HTTP round trip becomes an
explicit injected transport function, and machine integers become Nat with
explicit reduction modulo 2^32 where the algorithms require it.
-/

/-! ## Bytes and UTF-8

Go strings are byte sequences; the client only ever feeds them to HMAC and
base64 as raw bytes.  We model a byte sequence as a `List Nat` with every
element below 256, and encode Lean strings through UTF-8 exactly as Go does.
-/

def utf8EncodeChar (n : Nat) : List Nat :=
  if n < 0x80 then [n]
  else if n < 0x800 then
    [0xC0 + (n >>> 6), 0x80 + (n &&& 0x3F)]
  else if n < 0x10000 then
    [0xE0 + (n >>> 12), 0x80 + ((n >>> 6) &&& 0x3F), 0x80 + (n &&& 0x3F)]
  else
    [0xF0 + (n >>> 18), 0x80 + ((n >>> 12) &&& 0x3F),
     0x80 + ((n >>> 6) &&& 0x3F), 0x80 + (n &&& 0x3F)]

def strBytes (s : String) : List Nat :=
  s.data.flatMap (fun c => utf8EncodeChar c.toNat)

/-! ## Base64 (Go encoding/base64 StdEncoding) -/

def b64Alphabet : List Char :=
  "ABCDEFGHIJKLMNOPQRSTUVWXYZabcdefghijklmnopqrstuvwxyz0123456789+/".data

def b64Chr (n : Nat) : Char := b64Alphabet.getD n 'A'

/-- Encode a byte list in standard base64 with padding, as Go
`base64.StdEncoding.EncodeToString` does.  Structural recursion on the list. -/
def base64EncodeList : List Nat → List Char
  | [] => []
  | [b1] =>
      [b64Chr (b1 >>> 2), b64Chr ((b1 &&& 0x3) <<< 4), '=', '=']
  | [b1, b2] =>
      [b64Chr (b1 >>> 2), b64Chr (((b1 &&& 0x3) <<< 4) + (b2 >>> 4)),
       b64Chr ((b2 &&& 0xF) <<< 2), '=']
  | b1 :: b2 :: b3 :: rest =>
      b64Chr (b1 >>> 2) :: b64Chr (((b1 &&& 0x3) <<< 4) + (b2 >>> 4)) ::
      b64Chr (((b2 &&& 0xF) <<< 2) + (b3 >>> 6)) :: b64Chr (b3 &&& 0x3F) ::
      base64EncodeList rest

def base64Encode (bs : List Nat) : String :=
  String.mk (base64EncodeList bs)

/-- Value of one base64 alphabet character, none for an invalid character. -/
def b64Val (c : Char) : Option Nat :=
  (List.range 64).findSome? (fun i => if b64Alphabet.getD i ' ' = c then some i else none)

/-- Decode standard base64 as Go `base64.StdEncoding.DecodeString` does:
carriage returns and newlines are skipped, data comes in quantums of four
characters, the final quantum may end in one or two padding characters and
the padding must end the input; any other shape is a decode error (Go returns
a `CorruptInputError`).  Like non-strict Go decoding, trailing bits hidden by
the padding are not checked. -/
def base64DecodeQuads : List Char → Option (List Nat)
  | [] => some []
  | c1 :: c2 :: c3 :: c4 :: rest => do
      let v1 ← b64Val c1
      let v2 ← b64Val c2
      if c3 = '=' then
        if c4 = '=' ∧ rest = [] then
          some [(v1 <<< 2) + (v2 >>> 4)]
        else none
      else do
        let v3 ← b64Val c3
        if c4 = '=' then
          if rest = [] then
            some [(v1 <<< 2) + (v2 >>> 4), ((v2 &&& 0xF) <<< 4) + (v3 >>> 2)]
          else none
        else do
          let v4 ← b64Val c4
          let tail ← base64DecodeQuads rest
          some (((v1 <<< 2) + (v2 >>> 4)) :: (((v2 &&& 0xF) <<< 4) + (v3 >>> 2)) ::
                (((v3 &&& 0x3) <<< 6) + v4) :: tail)
  | _ => none

def base64Decode (s : String) : Option (List Nat) :=
  base64DecodeQuads (s.data.filter (fun c => c ≠ '\r' ∧ c ≠ '\n'))

/-! ## SHA-256 (FIPS 180-4), as used by Go crypto/sha256 -/

def m32 : Nat := 4294967296

def rotr32 (n x : Nat) : Nat :=
  ((x >>> n) + (x <<< (32 - n))) % m32

def shaS0 (x : Nat) : Nat := (rotr32 7 x) ^^^ (rotr32 18 x) ^^^ (x >>> 3)
def shaS1 (x : Nat) : Nat := (rotr32 17 x) ^^^ (rotr32 19 x) ^^^ (x >>> 10)
def shaE0 (x : Nat) : Nat := (rotr32 2 x) ^^^ (rotr32 13 x) ^^^ (rotr32 22 x)
def shaE1 (x : Nat) : Nat := (rotr32 6 x) ^^^ (rotr32 11 x) ^^^ (rotr32 25 x)

def shaK : List Nat :=
  [1116352408, 1899447441, 3049323471, 3921009573, 961987163,
   1508970993, 2453635748, 2870763221, 3624381080, 310598401,
   607225278, 1426881987, 1925078388, 2162078206, 2614888103,
   3248222580, 3835390401, 4022224774, 264347078, 604807628,
   770255983, 1249150122, 1555081692, 1996064986, 2554220882,
   2821834349, 2952996808, 3210313671, 3336571891, 3584528711,
   113926993, 338241895, 666307205, 773529912, 1294757372,
   1396182291, 1695183700, 1986661051, 2177026350, 2456956037,
   2730485921, 2820302411, 3259730800, 3345764771, 3516065817,
   3600352804, 4094571909, 275423344, 430227734, 506948616,
   659060556, 883997877, 958139571, 1322822218, 1537002063,
   1747873779, 1955562222, 2024104815, 2227730452, 2361852424,
   2428436474, 2756734187, 3204031479, 3329325298]

def shaH0 : List Nat :=
  [1779033703, 3144134277, 1013904242, 2773480762,
   1359893119, 2600822924, 528734635, 1541459225]

def nthW (xs : List Nat) (i : Nat) : Nat := xs.getD i 0

/-- Big-endian 8-byte encoding of a length in bits. -/
def be64 (n : Nat) : List Nat :=
  [(n >>> 56) % 256, (n >>> 48) % 256, (n >>> 40) % 256, (n >>> 32) % 256,
   (n >>> 24) % 256, (n >>> 16) % 256, (n >>> 8) % 256, n % 256]

/-- Pad a message per FIPS 180-4: append 0x80, zeros to 56 mod 64, then the
bit length as a big-endian 64-bit integer. -/
def shaPad (msg : List Nat) : List Nat :=
  let L := msg.length
  let k := (119 - (L % 64)) % 64
  msg ++ (0x80 :: List.replicate k 0) ++ be64 (8 * L)

/-- Big-endian 32-bit words from bytes. -/
def bytesToWords : List Nat → List Nat
  | b1 :: b2 :: b3 :: b4 :: rest =>
      ((b1 <<< 24) + (b2 <<< 16) + (b3 <<< 8) + b4) :: bytesToWords rest
  | _ => []

set_option maxRecDepth 4000

def wordsToBytes : List Nat → List Nat
  | [] => []
  | w :: rest =>
      (w >>> 24) % 256 :: (w >>> 16) % 256 :: (w >>> 8) % 256 :: w % 256 ::
      wordsToBytes rest

/-- Extend the 16 message-schedule words to 64. -/
def shaSchedule (w16 : List Nat) : List Nat :=
  (List.range 48).foldl
    (fun w j =>
      w ++ [(nthW w j + shaS0 (nthW w (j + 1)) + nthW w (j + 9) +
             shaS1 (nthW w (j + 14))) % m32])
    w16

def not32 (x : Nat) : Nat := 0xFFFFFFFF - (x % m32)

/-- One SHA-256 round on the eight-word working state. -/
def shaRound (st : List Nat) (kw : Nat × Nat) : List Nat :=
  match st with
  | [a, b, c, d, e, f, g, h] =>
      let ch := ((e &&& f) ^^^ ((not32 e) &&& g)) % m32
      let maj := ((a &&& b) ^^^ (a &&& c) ^^^ (b &&& c)) % m32
      let t1 := (h + shaE1 e + ch + kw.1 + kw.2) % m32
      let t2 := (shaE0 a + maj) % m32
      [(t1 + t2) % m32, a, b, c, (d + t1) % m32, e, f, g]
  | st => st

/-- Compress one 64-byte chunk into the hash state. -/
def shaCompress (hs : List Nat) (chunk : List Nat) : List Nat :=
  let w := shaSchedule (bytesToWords chunk)
  let st := (shaK.zip w).foldl shaRound hs
  (hs.zip st).map (fun p => (p.1 + p.2) % m32)

/-- Split bytes into 64-byte chunks; fuel is the list length. -/
def chunks64 : Nat → List Nat → List (List Nat)
  | 0, _ => []
  | _, [] => []
  | fuel + 1, bs => bs.take 64 :: chunks64 fuel (bs.drop 64)

def sha256 (msg : List Nat) : List Nat :=
  let padded := shaPad msg
  wordsToBytes ((chunks64 padded.length padded).foldl shaCompress shaH0)

/-- HMAC-SHA256 (RFC 2104) with the 64-byte SHA-256 block size, as in Go
crypto/hmac instantiated at sha256. -/
def hmacSha256 (key msg : List Nat) : List Nat :=
  let k0 := if key.length > 64 then sha256 key else key
  let k := k0 ++ List.replicate (64 - k0.length) 0
  let ipad := k.map (fun b => b ^^^ 0x36)
  let opad := k.map (fun b => b ^^^ 0x5C)
  sha256 (opad ++ sha256 (ipad ++ msg))

example : sha256 (strBytes "abc") =
    [0xba, 0x78, 0x16, 0xbf, 0x8f, 0x01, 0xcf, 0xea, 0x41, 0x41, 0x40, 0xde,
     0x5d, 0xae, 0x22, 0x23, 0xb0, 0x03, 0x61, 0xa3, 0x96, 0x17, 0x7a, 0x9c,
     0xb4, 0x10, 0xff, 0x61, 0xf2, 0x00, 0x15, 0xad] := by decide

example : base64Decode "c2VjcmV0" = some (strBytes "secret") := by decide

example : base64Encode (hmacSha256 (strBytes "secret")
    (strBytes "1700000000GET/accounts/abc123")) =
    "+8+baDJmQe1rJKq4OpKtbYUieecCV0hpAvEivSAIPEI=" := by decide

/-! ## JSON values and a parser modelling Go encoding/json

The Go source decodes response bodies with `json.NewDecoder(res.Body).Decode`.
We model the JSON fragment the client exercises: a recursive-descent parser
into a `Json` value (numbers kept as source text, since the client never
consumes a numeric field), followed by per-struct unmarshalling with the Go
field-matching rule (case-insensitive key match, last occurrence wins, absent
or null keys leave the zero value in place).
-/

def lbrace : Char := Char.ofNat 123
def rbrace : Char := Char.ofNat 125

inductive Json where
  | null : Json
  | jbool : Bool → Json
  | jnum : String → Json
  | jstr : String → Json
  | jarr : List Json → Json
  | jobj : List (String × Json) → Json

def hexVal (c : Char) : Option Nat :=
  if '0' ≤ c ∧ c ≤ '9' then some (c.toNat - 48)
  else if 'a' ≤ c ∧ c ≤ 'f' then some (c.toNat - 87)
  else if 'A' ≤ c ∧ c ≤ 'F' then some (c.toNat - 55)
  else none

def unescChar (c : Char) : Option Char :=
  if c = '"' then some '"'
  else if c = '\\' then some '\\'
  else if c = '/' then some '/'
  else if c = 'b' then some (Char.ofNat 8)
  else if c = 'f' then some (Char.ofNat 12)
  else if c = 'n' then some '\n'
  else if c = 'r' then some '\r'
  else if c = 't' then some '\t'
  else none

/-- Parse the body of a JSON string literal after its opening quote, returning
the decoded characters and the input remaining after the closing quote.
Surrogate pairs are not modelled; no payload in scope contains them. -/
def parseStrChars : List Char → Option (List Char × List Char)
  | [] => none
  | c :: rest =>
    if c = '"' then some (([] : List Char), rest)
    else if c = '\\' then
      match rest with
      | 'u' :: h1 :: h2 :: h3 :: h4 :: rest4 => do
          let v1 ← hexVal h1
          let v2 ← hexVal h2
          let v3 ← hexVal h3
          let v4 ← hexVal h4
          let p ← parseStrChars rest4
          some (Char.ofNat (((v1 * 16 + v2) * 16 + v3) * 16 + v4) :: p.1, p.2)
      | e :: rest2 => do
          let u ← unescChar e
          let p ← parseStrChars rest2
          some (u :: p.1, p.2)
      | [] => none
    else do
      let p ← parseStrChars rest
      some (c :: p.1, p.2)

def skipWs : List Char → List Char
  | [] => []
  | c :: rest =>
      if c = ' ' ∨ c = '\n' ∨ c = '\t' ∨ c = '\r' then skipWs rest else c :: rest

def numChar (c : Char) : Bool :=
  c.isDigit || c = '-' || c = '+' || c = '.' || c = 'e' || c = 'E'

def numFirst (c : Char) : Bool := c.isDigit || c = '-'

mutual

def parseJson : Nat → List Char → Option (Json × List Char)
  | 0, _ => none
  | fuel + 1, cs =>
    match skipWs cs with
    | [] => none
    | c :: rest =>
      if c = '"' then
        match parseStrChars rest with
        | some p => some (Json.jstr (String.mk p.1), p.2)
        | none => none
      else if c = lbrace then
        match skipWs rest with
        | [] => none
        | c2 :: r2 =>
          if c2 = rbrace then some (Json.jobj [], r2)
          else
            match parseMembers fuel (c2 :: r2) with
            | some p => some (Json.jobj p.1, p.2)
            | none => none
      else if c = '[' then
        match skipWs rest with
        | [] => none
        | c2 :: r2 =>
          if c2 = ']' then some (Json.jarr [], r2)
          else
            match parseElems fuel (c2 :: r2) with
            | some p => some (Json.jarr p.1, p.2)
            | none => none
      else if c = 't' then
        match rest with
        | 'r' :: 'u' :: 'e' :: r => some (Json.jbool true, r)
        | _ => none
      else if c = 'f' then
        match rest with
        | 'a' :: 'l' :: 's' :: 'e' :: r => some (Json.jbool false, r)
        | _ => none
      else if c = 'n' then
        match rest with
        | 'u' :: 'l' :: 'l' :: r => some (Json.null, r)
        | _ => none
      else if numFirst c then
        some (Json.jnum (String.mk (List.takeWhile numChar (c :: rest))),
              List.dropWhile numChar (c :: rest))
      else none

def parseMembers : Nat → List Char → Option (List (String × Json) × List Char)
  | 0, _ => none
  | fuel + 1, cs =>
    match cs with
    | '"' :: rest =>
      match parseStrChars rest with
      | none => none
      | some (k, r1) =>
        match skipWs r1 with
        | ':' :: r2 =>
          match parseJson fuel r2 with
          | none => none
          | some (v, r3) =>
            match skipWs r3 with
            | ',' :: r4 =>
              match parseMembers fuel (skipWs r4) with
              | some p => some ((String.mk k, v) :: p.1, p.2)
              | none => none
            | c5 :: r5 =>
              if c5 = rbrace then some ([(String.mk k, v)], r5) else none
            | [] => none
        | _ => none
    | _ => none

def parseElems : Nat → List Char → Option (List Json × List Char)
  | 0, _ => none
  | fuel + 1, cs =>
    match parseJson fuel cs with
    | none => none
    | some (v, r1) =>
      match skipWs r1 with
      | ',' :: r2 =>
        match parseElems fuel r2 with
        | some p => some (v :: p.1, p.2)
        | none => none
      | ']' :: r2 => some ([v], r2)
      | _ => none

end

/-- Decode one JSON value from a body, as Go `json.Decoder.Decode` reads one
value (data after the value is left unread and causes no error).  The fuel
`2 * length + 12` bounds the recursion depth: every two levels of the mutual
recursion consume at least one input character. -/
def goDecodeJson (body : String) : Option Json :=
  (parseJson (2 * body.data.length + 12) body.data).map Prod.fst

/-! ## Go struct unmarshalling for the response types of pkg/godax -/

def lowerStr (s : String) : String := String.mk (s.data.map Char.toLower)

/-- The JSON value assigned to a struct field: Go matches object keys to a
field name or tag case-insensitively, assigning in key order, so among several
matching keys the last one wins. -/
def jsonFieldLast (kvs : List (String × Json)) (name : String) : Option Json :=
  match kvs with
  | [] => none
  | (k, v) :: rest =>
      match jsonFieldLast rest name with
      | some r => some r
      | none => if lowerStr k = lowerStr name then some v else none

/-- Decode a string-typed struct field, Go style: the result is the field
value together with a flag recording whether an `UnmarshalTypeError` occurred.
An absent or null key leaves the zero value `""` in place with no error; a key
bound to a non-string value records the type error and leaves the field at its
zero value - Go saves the error, skips the offending value and keeps filling
the remaining fields, so partial data survives a dropped error. -/
def goStrField (kvs : List (String × Json)) (name : String) : String × Bool :=
  match jsonFieldLast kvs name with
  | none => ("", false)
  | some (Json.jstr s) => (s, false)
  | some Json.null => ("", false)
  | some _ => ("", true)

/-! ## Data model of pkg/godax (accounts.go lines 21-98, godax.go lines 11-18)

Field names keep the Go names up to Lean casing; `Type` becomes `typ` because
`type` is not a valid Lean identifier.  JSON tag names are the lowercase tags
of accounts.go for `ListAccount` and `Account`; `AccountActivity` and
`ActivityDetail` carry no tags, so Go matches their exported field names
case-insensitively.
-/

structure ListAccount where
  id : String
  currency : String
  balance : String
  available : String
  hold : String
deriving DecidableEq, Repr

structure Account where
  id : String
  balance : String
  holds : String
  available : String
  currency : String
deriving DecidableEq, Repr

structure ActivityDetail where
  orderID : String
  tradeID : String
  productID : String
deriving DecidableEq, Repr

structure AccountActivity where
  id : String
  createdAt : String
  amount : String
  balance : String
  typ : String
  details : ActivityDetail
deriving DecidableEq, Repr

/-- Modelled from the spec: the `AccountHold` response type is referenced by
`GetAccountHolds` in godax.go but its definition is not under src/.  The spec
only fixes the endpoint (`/accounts/\x7bid\x7d/holds`, GET, empty body) and that
money fields are decimal strings; the field list follows the upstream hold
object the doc comment describes (order or withdrawal holds on an account). -/
structure AccountHold where
  id : String
  accountID : String
  createdAt : String
  updatedAt : String
  amount : String
  typ : String
  ref : String
deriving DecidableEq, Repr

def zeroListAccount : ListAccount := ⟨"", "", "", "", ""⟩
def zeroAccount : Account := ⟨"", "", "", "", ""⟩
def zeroDetail : ActivityDetail := ⟨"", "", ""⟩
def zeroActivity : AccountActivity := ⟨"", "", "", "", "", zeroDetail⟩
def zeroHold : AccountHold := ⟨"", "", "", "", "", "", ""⟩

/-!
Each unmarshalling function mirrors Go `json.Unmarshal` into the target type:
the result is the populated value together with a flag recording whether any
`UnmarshalTypeError` was saved along the way.  Go never aborts on a type
error: the offending field or element stays at its zero value and decoding
continues, so a caller that drops the error (as accounts.go does) observes the
partially-populated value.  A top-level `null` is a no-op success; a top-level
value of the wrong kind records the error and leaves the whole target at its
zero value.
-/

def unmarshalListAccount : Json → ListAccount × Bool
  | Json.jobj kvs =>
      let i := goStrField kvs "id"
      let cur := goStrField kvs "currency"
      let bal := goStrField kvs "balance"
      let av := goStrField kvs "available"
      let ho := goStrField kvs "hold"
      (⟨i.1, cur.1, bal.1, av.1, ho.1⟩, i.2 || cur.2 || bal.2 || av.2 || ho.2)
  | Json.null => (zeroListAccount, false)
  | _ => (zeroListAccount, true)

/-- Array decode, Go style: the slice grows by one element per array entry,
each decoded independently; an element with a type error is kept at whatever
(possibly zero) value decoding left and the error flag is set. -/
def unmarshalListAccounts : Json → List ListAccount × Bool
  | Json.jarr xs =>
      let rs := xs.map unmarshalListAccount
      (rs.map Prod.fst, rs.any Prod.snd)
  | Json.null => ([], false)
  | _ => ([], true)

def unmarshalAccount : Json → Account × Bool
  | Json.jobj kvs =>
      let i := goStrField kvs "id"
      let bal := goStrField kvs "balance"
      let ho := goStrField kvs "holds"
      let av := goStrField kvs "available"
      let cur := goStrField kvs "currency"
      (⟨i.1, bal.1, ho.1, av.1, cur.1⟩, i.2 || bal.2 || ho.2 || av.2 || cur.2)
  | Json.null => (zeroAccount, false)
  | _ => (zeroAccount, true)

def unmarshalDetail : Json → ActivityDetail × Bool
  | Json.jobj kvs =>
      let o := goStrField kvs "OrderID"
      let t := goStrField kvs "TradeID"
      let p := goStrField kvs "ProductID"
      (⟨o.1, t.1, p.1⟩, o.2 || t.2 || p.2)
  | Json.null => (zeroDetail, false)
  | _ => (zeroDetail, true)

def unmarshalActivity : Json → AccountActivity × Bool
  | Json.jobj kvs =>
      let i := goStrField kvs "ID"
      let ca := goStrField kvs "CreatedAt"
      let am := goStrField kvs "Amount"
      let bal := goStrField kvs "Balance"
      let ty := goStrField kvs "Type"
      let de := match jsonFieldLast kvs "Details" with
                | none => (zeroDetail, false)
                | some v => unmarshalDetail v
      (⟨i.1, ca.1, am.1, bal.1, ty.1, de.1⟩,
       i.2 || ca.2 || am.2 || bal.2 || ty.2 || de.2)
  | Json.null => (zeroActivity, false)
  | _ => (zeroActivity, true)

def unmarshalActivities : Json → List AccountActivity × Bool
  | Json.jarr xs =>
      let rs := xs.map unmarshalActivity
      (rs.map Prod.fst, rs.any Prod.snd)
  | Json.null => ([], false)
  | _ => ([], true)

def unmarshalHold : Json → AccountHold × Bool
  | Json.jobj kvs =>
      let i := goStrField kvs "id"
      let ac := goStrField kvs "accountID"
      let ca := goStrField kvs "createdAt"
      let ua := goStrField kvs "updatedAt"
      let am := goStrField kvs "amount"
      let ty := goStrField kvs "type"
      let re := goStrField kvs "ref"
      (⟨i.1, ac.1, ca.1, ua.1, am.1, ty.1, re.1⟩,
       i.2 || ac.2 || ca.2 || ua.2 || am.2 || ty.2 || re.2)
  | Json.null => (zeroHold, false)
  | _ => (zeroHold, true)

def unmarshalHolds : Json → List AccountHold × Bool
  | Json.jarr xs =>
      let rs := xs.map unmarshalHold
      (rs.map Prod.fst, rs.any Prod.snd)
  | Json.null => ([], false)
  | _ => ([], true)

/-!
The value left in the decode target after `json.NewDecoder(res.Body).Decode(&x)`
with the returned error dropped, exactly as accounts.go does: a body that does
not scan as one JSON value (syntax error, or empty body giving io.EOF) leaves
the target untouched at its zero value; otherwise the target holds the
(possibly partially) unmarshalled value.  The matching `decode...Err`
predicates record whether Go would have returned a non-nil error for that
body - the error the source discards.
-/

def goDecodeListAccounts (body : String) : List ListAccount :=
  match goDecodeJson body with
  | none => []
  | some j => (unmarshalListAccounts j).1

def decodeListAccountsErr (body : String) : Bool :=
  match goDecodeJson body with
  | none => true
  | some j => (unmarshalListAccounts j).2

def goDecodeAccount (body : String) : Account :=
  match goDecodeJson body with
  | none => zeroAccount
  | some j => (unmarshalAccount j).1

def decodeAccountErr (body : String) : Bool :=
  match goDecodeJson body with
  | none => true
  | some j => (unmarshalAccount j).2

def goDecodeActivities (body : String) : List AccountActivity :=
  match goDecodeJson body with
  | none => []
  | some j => (unmarshalActivities j).1

def decodeActivitiesErr (body : String) : Bool :=
  match goDecodeJson body with
  | none => true
  | some j => (unmarshalActivities j).2

def goDecodeHolds (body : String) : List AccountHold :=
  match goDecodeJson body with
  | none => []
  | some j => (unmarshalHolds j).1

def decodeHoldsErr (body : String) : Bool :=
  match goDecodeJson body with
  | none => true
  | some j => (unmarshalHolds j).2

example : goDecodeListAccounts "[]" = [] ∧ decodeListAccountsErr "[]" = false := by decide

example : goDecodeListAccounts "not json" = []
    ∧ decodeListAccountsErr "not json" = true := by decide

example :
    goDecodeListAccounts
      "[\x7b\"id\":\"a1\",\"currency\":\"BTC\",\"balance\":\"1.5\",\"available\":\"1.0\",\"hold\":\"0.5\"\x7d]"
      = [⟨"a1", "BTC", "1.5", "1.0", "0.5"⟩] := by decide

example :
    goDecodeListAccounts "[\x7b\"id\":\"a1\"\x7d,\x7b\"id\":5\x7d]"
      = [⟨"a1", "", "", "", ""⟩, ⟨"", "", "", "", ""⟩]
    ∧ decodeListAccountsErr "[\x7b\"id\":\"a1\"\x7d,\x7b\"id\":5\x7d]" = true := by decide

/-! ## Client, requests, responses and errors

The Go `Client` (godax.go lines 11-18) carries two base URLs, the three
credentials and an injected `HTTPClient`.  The transport is a function value
here rather than a struct field, so the rest of the struct stays decidably
comparable; every embedded operation receives the transport explicitly,
mirroring the single interface method `Do(req) (*Response, error)`.
Go `error` results become `Option GErr` (`none` is Go `nil`), and every Go
function returning `(T, error)` becomes a function producing both components.
-/

structure Client where
  baseRestURL : String
  baseWsURL : String
  key : String
  secret : String
  passphrase : String
deriving DecidableEq, Repr

structure Request where
  method : String
  url : String
  headers : List (String × String)
deriving DecidableEq, Repr

structure Response where
  statusCode : Nat
  body : String
  headers : List (String × String)
deriving DecidableEq, Repr

inductive GErr where
  | invalidCredential : GErr
  | network : GErr
deriving DecidableEq, Repr

/-- A transport is the injected `HTTPClient.Do`: one request in, either a
response or a transport-level error (`none`). -/
def Transport : Type := Request → Option Response

/-- Result of one embedded operation: the client state after the call, the
returned value, the returned Go error, and the trace of requests actually
handed to the transport (used to settle claims about whether and what the
client sent). -/
structure CallOut (α : Type) where
  client : Client
  value : α
  err : Option GErr
  sent : List Request
deriving DecidableEq, Repr

/-- unixTime (godax.go lines 99-101): `strconv.FormatInt(time.Now().Unix(), 10)`.
The current instant is an explicit parameter of the embedding. -/
def unixTime (now : Int) : String := toString now

/-- Modelled from the spec: `generateSignature` is called from godax.go and
accounts.go but its definition is not under src/.  Spec section 4.1: decode
the base64 secret (failure is the fatal `InvalidCredential` configuration
error), take the message `timestamp || method || path || body`, and return
the base64 encoding of the HMAC-SHA256 digest of the message keyed by the
decoded secret.  The parameter order `(timestamp, requestPath, method, body)`
is the order of every call site in src/. -/
def generateSignature (secret timestamp requestPath method body : String) :
    String × Option GErr :=
  match base64Decode secret with
  | none => ("", some GErr.invalidCredential)
  | some key =>
      (base64Encode (hmacSha256 key
        (strBytes (timestamp ++ method ++ requestPath ++ body))), none)

/-- Modelled from the spec: `setHeaders` is called from accounts.go but its
definition is not under src/.  Spec sections 4.2 and 6: attach the four
authentication headers - access key, access signature, access timestamp,
access passphrase - under the Coinbase Pro wire names. -/
def setHeaders (req : Request) (c : Client) (timestamp sig : String) : Request :=
  { req with headers := req.headers ++
      [("CB-ACCESS-KEY", c.key), ("CB-ACCESS-SIGN", sig),
       ("CB-ACCESS-TIMESTAMP", timestamp), ("CB-ACCESS-PASSPHRASE", c.passphrase)] }

/-- Go `http.NewRequest(method, url, nil)` can fail only when the URL does not
parse or the method is invalid; the URLs formed in accounts.go are a constant
base URL plus a path and the method is always the constant GET, so request
construction is total in this model. -/
def newRequest (method url : String) : Request := ⟨method, url, []⟩

/-! ## The account operations (accounts.go lines 100-182, godax.go lines 30-97)

Each private method is translated statement by statement: build the request,
capture one timestamp, sign, set headers, hand the request to the transport,
and return whatever value `json.NewDecoder(res.Body).Decode(&x)` left in the
target, with the decode error dropped exactly as the source drops it.  The
exported wrappers recompute nothing of consequence: they sign with the same
timestamp source and bail out on a signature error before dispatch.
-/

/-- listAccounts (accounts.go lines 101-126). -/
def listAccountsGo (c : Client) (now : Int) (doFn : Transport) :
    CallOut (List ListAccount) :=
  let path := "/accounts"
  let req := newRequest "GET" (c.baseRestURL ++ path)
  let timestamp := unixTime now
  match generateSignature c.secret timestamp path "GET" "" with
  | (_, some e) => ⟨c, [], some e, []⟩
  | (sig, none) =>
    let req := setHeaders req c timestamp sig
    match doFn req with
    | none => ⟨c, [], some GErr.network, [req]⟩
    | some res => ⟨c, goDecodeListAccounts res.body, none, [req]⟩

/-- getAccount (accounts.go lines 129-154). -/
def getAccountGo (c : Client) (accountID : String) (now : Int) (doFn : Transport) :
    CallOut Account :=
  let path := "/accounts/" ++ accountID
  let req := newRequest "GET" (c.baseRestURL ++ path)
  let timestamp := unixTime now
  match generateSignature c.secret timestamp path "GET" "" with
  | (_, some e) => ⟨c, zeroAccount, some e, []⟩
  | (sig, none) =>
    let req := setHeaders req c timestamp sig
    match doFn req with
    | none => ⟨c, zeroAccount, some GErr.network, [req]⟩
    | some res => ⟨c, goDecodeAccount res.body, none, [req]⟩

/-- getAccountHistory (accounts.go lines 157-182).  The source sends exactly
one request and never reads the pagination cursor headers of the response. -/
def getAccountHistoryGo (c : Client) (accountID : String) (now : Int)
    (doFn : Transport) : CallOut (List AccountActivity) :=
  let path := "/accounts/" ++ accountID ++ "/ledger"
  let req := newRequest "GET" (c.baseRestURL ++ path)
  let timestamp := unixTime now
  match generateSignature c.secret timestamp path "GET" "" with
  | (_, some e) => ⟨c, [], some e, []⟩
  | (sig, none) =>
    let req := setHeaders req c timestamp sig
    match doFn req with
    | none => ⟨c, [], some GErr.network, [req]⟩
    | some res => ⟨c, goDecodeActivities res.body, none, [req]⟩

/-- Modelled from the spec: `getAccountHolds` is called from godax.go line 96
but its definition is not under src/.  Spec section 6 fixes the endpoint
(`/accounts/\x7bid\x7d/holds`, GET, empty body, signed like the others); the body
of the method follows the uniform pipeline every other accounts.go method
instantiates. -/
def getAccountHoldsGo (c : Client) (accountID : String) (now : Int)
    (doFn : Transport) : CallOut (List AccountHold) :=
  let path := "/accounts/" ++ accountID ++ "/holds"
  let req := newRequest "GET" (c.baseRestURL ++ path)
  let timestamp := unixTime now
  match generateSignature c.secret timestamp path "GET" "" with
  | (_, some e) => ⟨c, [], some e, []⟩
  | (sig, none) =>
    let req := setHeaders req c timestamp sig
    match doFn req with
    | none => ⟨c, [], some GErr.network, [req]⟩
    | some res => ⟨c, goDecodeHolds res.body, none, [req]⟩

/-- ListAccounts (godax.go lines 33-44): sign first, bail out on a signature
error, then run the private method. -/
def ListAccountsGo (c : Client) (now : Int) (doFn : Transport) :
    CallOut (List ListAccount) :=
  match generateSignature c.secret (unixTime now) "/accounts" "GET" "" with
  | (_, some e) => ⟨c, [], some e, []⟩
  | (_, none) => listAccountsGo c now doFn

/-- GetAccount (godax.go lines 49-60). -/
def GetAccountGo (c : Client) (accountID : String) (now : Int) (doFn : Transport) :
    CallOut Account :=
  match generateSignature c.secret (unixTime now) ("/accounts/" ++ accountID) "GET" "" with
  | (_, some e) => ⟨c, zeroAccount, some e, []⟩
  | (_, none) => getAccountGo c accountID now doFn

/-- GetAccountHistory (godax.go lines 67-78). -/
def GetAccountHistoryGo (c : Client) (accountID : String) (now : Int)
    (doFn : Transport) : CallOut (List AccountActivity) :=
  match generateSignature c.secret (unixTime now)
      ("/accounts/" ++ accountID ++ "/ledger") "GET" "" with
  | (_, some e) => ⟨c, [], some e, []⟩
  | (_, none) => getAccountHistoryGo c accountID now doFn

/-- GetAccountHolds (godax.go lines 86-97). -/
def GetAccountHoldsGo (c : Client) (accountID : String) (now : Int)
    (doFn : Transport) : CallOut (List AccountHold) :=
  match generateSignature c.secret (unixTime now)
      ("/accounts/" ++ accountID ++ "/holds") "GET" "" with
  | (_, some e) => ⟨c, [], some e, []⟩
  | (_, none) => getAccountHoldsGo c accountID now doFn

/-! ## Go json.Marshal of a ListAccount (claim C8)

`json.Marshal` emits the tagged keys in struct declaration order with no
whitespace, escaping each string with the default HTML-escaping writer:
quote, backslash, newline, carriage return and tab as two-character escapes,
remaining control characters as `\u00XX`, and the HTML-sensitive characters
`<`, `>`, `&`, U+2028, U+2029 as six-character escapes.
-/

def hexDigitChr (n : Nat) : Char := "0123456789abcdef".data.getD n '0'

def escapeJsonChar (c : Char) : List Char :=
  if c = '"' then ['\\', '"']
  else if c = '\\' then ['\\', '\\']
  else if c = '\n' then ['\\', 'n']
  else if c = '\r' then ['\\', 'r']
  else if c = '\t' then ['\\', 't']
  else if c.toNat < 0x20 then
    ['\\', 'u', '0', '0', hexDigitChr (c.toNat / 16), hexDigitChr (c.toNat % 16)]
  else if c = '<' then ['\\', 'u', '0', '0', '3', 'c']
  else if c = '>' then ['\\', 'u', '0', '0', '3', 'e']
  else if c = '&' then ['\\', 'u', '0', '0', '2', '6']
  else if c.toNat = 0x2028 then ['\\', 'u', '2', '0', '2', '8']
  else if c.toNat = 0x2029 then ['\\', 'u', '2', '0', '2', '9']
  else [c]

def escChars (s : List Char) : List Char := s.flatMap escapeJsonChar

/-- Rendered JSON string literal: quote, escaped content, quote. -/
def renderStr (s : String) : List Char := '"' :: (escChars s.data ++ ['"'])

/-- Byte-exact `json.Marshal` output for a `ListAccount` (keys are the tags of
accounts.go lines 21-32 in declaration order). -/
def marshalChars (a : ListAccount) : List Char :=
  [lbrace, '"', 'i', 'd', '"', ':'] ++ renderStr a.id ++
  [',', '"', 'c', 'u', 'r', 'r', 'e', 'n', 'c', 'y', '"', ':'] ++ renderStr a.currency ++
  [',', '"', 'b', 'a', 'l', 'a', 'n', 'c', 'e', '"', ':'] ++ renderStr a.balance ++
  [',', '"', 'a', 'v', 'a', 'i', 'l', 'a', 'b', 'l', 'e', '"', ':'] ++ renderStr a.available ++
  [',', '"', 'h', 'o', 'l', 'd', '"', ':'] ++ renderStr a.hold ++ [rbrace]

def marshalListAccount (a : ListAccount) : String := String.mk (marshalChars a)

/-- Go `json.Unmarshal` of a body into a single `ListAccount`: `some` the
decoded value exactly when Unmarshal reports no error, `none` when it would
return a syntax or type error. -/
def goDecodeListAccountOne (body : String) : Option ListAccount :=
  match goDecodeJson body with
  | none => none
  | some j =>
      match unmarshalListAccount j with
      | (v, false) => some v
      | (_, true) => none

/-- A character the Go escaper passes through unchanged. -/
def plainChar (c : Char) : Bool :=
  decide (0x20 ≤ c.toNat) && decide (c.toNat ≠ 0x22) && decide (c.toNat ≠ 0x5C) &&
  decide (c.toNat ≠ 0x3C) && decide (c.toNat ≠ 0x3E) && decide (c.toNat ≠ 0x26) &&
  decide (c.toNat ≠ 0x2028) && decide (c.toNat ≠ 0x2029)

/-- A character of a decimal string: a digit (codes 48-57), the decimal point
(46) or a leading minus (45). -/
def decimalChar (c : Char) : Bool :=
  decide (48 ≤ c.toNat ∧ c.toNat ≤ 57) || decide (c.toNat = 46) || decide (c.toNat = 45)

def plainStr (s : String) : Bool := s.data.all plainChar
def decimalStr (s : String) : Bool := s.data.all decimalChar

lemma decimalChar_plain (c : Char) (h : decimalChar c = true) : plainChar c = true := by
  simp only [decimalChar, Bool.or_eq_true, decide_eq_true_eq] at h
  simp only [plainChar, Bool.and_eq_true, decide_eq_true_eq]
  omega

lemma escapeJsonChar_plain (c : Char) (h : plainChar c = true) : escapeJsonChar c = [c] := by
  simp only [plainChar, Bool.and_eq_true, decide_eq_true_eq] at h
  obtain ⟨⟨⟨⟨⟨⟨⟨h1, h2⟩, h3⟩, h4⟩, h5⟩, h6⟩, h7⟩, h8⟩ := h
  have n1 : c ≠ '"' := fun hc => by subst hc; exact absurd rfl h2
  have n2 : c ≠ '\\' := fun hc => by subst hc; exact absurd rfl h3
  have n3 : c ≠ '\n' := fun hc => by subst hc; exact absurd h1 (by decide)
  have n4 : c ≠ '\r' := fun hc => by subst hc; exact absurd h1 (by decide)
  have n5 : c ≠ '\t' := fun hc => by subst hc; exact absurd h1 (by decide)
  have n6 : ¬ (c.toNat < 0x20) := by omega
  have n7 : c ≠ '<' := fun hc => by subst hc; exact absurd rfl h4
  have n8 : c ≠ '>' := fun hc => by subst hc; exact absurd rfl h5
  have n9 : c ≠ '&' := fun hc => by subst hc; exact absurd rfl h6
  rw [escapeJsonChar, if_neg n1, if_neg n2, if_neg n3, if_neg n4, if_neg n5,
      if_neg n6, if_neg n7, if_neg n8, if_neg n9, if_neg h7, if_neg h8]

/-- Parsing back an escaped plain string consumes exactly the rendered content
and the closing quote. -/
lemma parseStrChars_escape (s : List Char) (rest : List Char)
    (h : s.all plainChar = true) :
    parseStrChars (escChars s ++ '"' :: rest) = some (s, rest) := by
  induction s with
  | nil =>
      rw [parseStrChars.eq_def]
      simp [escChars]
  | cons c cs ih =>
      simp only [List.all_cons, Bool.and_eq_true] at h
      have hpc := h.1
      have heq := escapeJsonChar_plain c hpc
      have hne1 : c ≠ '"' := by
        intro hc
        subst hc
        simp [plainChar] at hpc
      have hne2 : c ≠ '\\' := by
        intro hc
        subst hc
        simp [plainChar] at hpc
      simp only [escChars, List.flatMap_cons, heq, List.singleton_append,
        List.cons_append]
      rw [parseStrChars.eq_def]
      simp only [escChars] at ih
      simp [hne1, hne2, ih h.2]

lemma escChars_plain (s : List Char) (h : s.all plainChar = true) : escChars s = s := by
  induction s with
  | nil => rfl
  | cons c cs ih =>
      simp only [List.all_cons, Bool.and_eq_true] at h
      simp only [escChars] at ih ⊢
      simp [List.flatMap_cons, escapeJsonChar_plain c h.1, ih h.2]

lemma parseStrChars_plain (s rest : List Char) (h : s.all plainChar = true) :
    parseStrChars (s ++ '"' :: rest) = some (s, rest) := by
  have hp := parseStrChars_escape s rest h
  rwa [escChars_plain s h] at hp

/-- Parsing an object whose first member starts right after the brace. -/
lemma parseJson_obj (f : Nat) (cs : List Char) (kvs : List (String × Json))
    (rest : List Char) (h : parseMembers (f + 1) ('"' :: cs) = some (kvs, rest)) :
    parseJson (f + 1 + 1) (lbrace :: '"' :: cs) = some (Json.jobj kvs, rest) := by
  rw [parseJson.eq_def]
  simp [skipWs.eq_def, lbrace, rbrace, h]

lemma skipWs_colon (xs : List Char) : skipWs (':' :: xs) = ':' :: xs := by
  rw [skipWs.eq_def]
  simp

lemma skipWs_comma (xs : List Char) : skipWs (',' :: xs) = ',' :: xs := by
  rw [skipWs.eq_def]
  simp

lemma skipWs_quote (xs : List Char) : skipWs ('"' :: xs) = '"' :: xs := by
  rw [skipWs.eq_def]
  simp

lemma skipWs_rbrace (xs : List Char) : skipWs (rbrace :: xs) = rbrace :: xs := by
  rw [skipWs.eq_def]
  simp [rbrace]

/-- Parsing one `"key":"value",` member of plain characters followed by more
members. -/
lemma parseMembers_cons (g : Nat) (key v tail : List Char)
    (kvs : List (String × Json)) (rest : List Char)
    (hkey : key.all plainChar = true) (hv : v.all plainChar = true)
    (h : parseMembers (g + 1) (skipWs tail) = some (kvs, rest)) :
    parseMembers (g + 1 + 1)
        ('"' :: (key ++ '"' :: ':' :: '"' :: (v ++ '"' :: ',' :: tail)))
      = some ((String.mk key, Json.jstr (String.mk v)) :: kvs, rest) := by
  rw [parseMembers.eq_def]
  simp [parseStrChars_plain key (':' :: '"' :: (v ++ '"' :: ',' :: tail)) hkey,
    skipWs_colon, skipWs_quote, skipWs_comma, parseJson.eq_def,
    parseStrChars_plain v (',' :: tail) hv, h]

/-- Parsing the final `"key":"value"` member before the closing brace. -/
lemma parseMembers_last (g : Nat) (key v rest : List Char)
    (hkey : key.all plainChar = true) (hv : v.all plainChar = true) :
    parseMembers (g + 1 + 1)
        ('"' :: (key ++ '"' :: ':' :: '"' :: (v ++ '"' :: rbrace :: rest)))
      = some ([(String.mk key, Json.jstr (String.mk v))], rest) := by
  rw [parseMembers.eq_def]
  simp [parseStrChars_plain key (':' :: '"' :: (v ++ '"' :: rbrace :: rest)) hkey,
    skipWs_colon, parseJson.eq_def, skipWs_quote,
    parseStrChars_plain v (rbrace :: rest) hv, skipWs_rbrace]
  simp [show rbrace = '\x7d' from rfl]

/-- Parsing the full marshalled `ListAccount` object with plain field
contents, at any sufficient fuel. -/
lemma parseJson_marshal (a : ListAccount)
    (h1 : a.id.data.all plainChar = true) (h2 : a.currency.data.all plainChar = true)
    (h3 : a.balance.data.all plainChar = true) (h4 : a.available.data.all plainChar = true)
    (h5 : a.hold.data.all plainChar = true) (f : Nat) :
    parseJson (f + 1 + 1 + 1 + 1 + 1 + 1 + 1) (marshalChars a)
      = some (Json.jobj
          [(String.mk ['i', 'd'], Json.jstr a.id),
           (String.mk ['c', 'u', 'r', 'r', 'e', 'n', 'c', 'y'], Json.jstr a.currency),
           (String.mk ['b', 'a', 'l', 'a', 'n', 'c', 'e'], Json.jstr a.balance),
           (String.mk ['a', 'v', 'a', 'i', 'l', 'a', 'b', 'l', 'e'], Json.jstr a.available),
           (String.mk ['h', 'o', 'l', 'd'], Json.jstr a.hold)], []) := by
  have m5 : parseMembers (f + 1 + 1)
      ('"' :: (['h', 'o', 'l', 'd'] ++ '"' :: ':' :: '"' :: (a.hold.data ++ '"' :: rbrace :: [])))
      = some ([(String.mk ['h', 'o', 'l', 'd'], Json.jstr (String.mk a.hold.data))], []) :=
    parseMembers_last f ['h', 'o', 'l', 'd'] a.hold.data [] (by decide) h5
  have m4 : parseMembers (f + 1 + 1 + 1)
      ('"' :: (['a', 'v', 'a', 'i', 'l', 'a', 'b', 'l', 'e'] ++ '"' :: ':' :: '"' ::
        (a.available.data ++ '"' :: ',' ::
          ('"' :: (['h', 'o', 'l', 'd'] ++ '"' :: ':' :: '"' :: (a.hold.data ++ '"' :: rbrace :: []))))))
      = some ((String.mk ['a', 'v', 'a', 'i', 'l', 'a', 'b', 'l', 'e'],
          Json.jstr (String.mk a.available.data)) ::
          [(String.mk ['h', 'o', 'l', 'd'], Json.jstr (String.mk a.hold.data))], []) :=
    parseMembers_cons (f + 1) ['a', 'v', 'a', 'i', 'l', 'a', 'b', 'l', 'e'] a.available.data
      _ _ _ (by decide) h4 (by rw [skipWs_quote]; exact m5)
  have m3 : parseMembers (f + 1 + 1 + 1 + 1)
      ('"' :: (['b', 'a', 'l', 'a', 'n', 'c', 'e'] ++ '"' :: ':' :: '"' ::
        (a.balance.data ++ '"' :: ',' ::
          ('"' :: (['a', 'v', 'a', 'i', 'l', 'a', 'b', 'l', 'e'] ++ '"' :: ':' :: '"' ::
            (a.available.data ++ '"' :: ',' ::
              ('"' :: (['h', 'o', 'l', 'd'] ++ '"' :: ':' :: '"' :: (a.hold.data ++ '"' :: rbrace :: [])))))))))
      = some ((String.mk ['b', 'a', 'l', 'a', 'n', 'c', 'e'], Json.jstr (String.mk a.balance.data)) ::
          (String.mk ['a', 'v', 'a', 'i', 'l', 'a', 'b', 'l', 'e'],
            Json.jstr (String.mk a.available.data)) ::
          [(String.mk ['h', 'o', 'l', 'd'], Json.jstr (String.mk a.hold.data))], []) :=
    parseMembers_cons (f + 1 + 1) ['b', 'a', 'l', 'a', 'n', 'c', 'e'] a.balance.data
      _ _ _ (by decide) h3 (by rw [skipWs_quote]; exact m4)
  have m2 : parseMembers (f + 1 + 1 + 1 + 1 + 1)
      ('"' :: (['c', 'u', 'r', 'r', 'e', 'n', 'c', 'y'] ++ '"' :: ':' :: '"' ::
        (a.currency.data ++ '"' :: ',' ::
          ('"' :: (['b', 'a', 'l', 'a', 'n', 'c', 'e'] ++ '"' :: ':' :: '"' ::
            (a.balance.data ++ '"' :: ',' ::
              ('"' :: (['a', 'v', 'a', 'i', 'l', 'a', 'b', 'l', 'e'] ++ '"' :: ':' :: '"' ::
                (a.available.data ++ '"' :: ',' ::
                  ('"' :: (['h', 'o', 'l', 'd'] ++ '"' :: ':' :: '"' ::
                    (a.hold.data ++ '"' :: rbrace :: []))))))))))))
      = some ((String.mk ['c', 'u', 'r', 'r', 'e', 'n', 'c', 'y'], Json.jstr (String.mk a.currency.data)) ::
          (String.mk ['b', 'a', 'l', 'a', 'n', 'c', 'e'], Json.jstr (String.mk a.balance.data)) ::
          (String.mk ['a', 'v', 'a', 'i', 'l', 'a', 'b', 'l', 'e'],
            Json.jstr (String.mk a.available.data)) ::
          [(String.mk ['h', 'o', 'l', 'd'], Json.jstr (String.mk a.hold.data))], []) :=
    parseMembers_cons (f + 1 + 1 + 1) ['c', 'u', 'r', 'r', 'e', 'n', 'c', 'y'] a.currency.data
      _ _ _ (by decide) h2 (by rw [skipWs_quote]; exact m3)
  have m1 : parseMembers (f + 1 + 1 + 1 + 1 + 1 + 1)
      ('"' :: (['i', 'd'] ++ '"' :: ':' :: '"' ::
        (a.id.data ++ '"' :: ',' ::
          ('"' :: (['c', 'u', 'r', 'r', 'e', 'n', 'c', 'y'] ++ '"' :: ':' :: '"' ::
            (a.currency.data ++ '"' :: ',' ::
              ('"' :: (['b', 'a', 'l', 'a', 'n', 'c', 'e'] ++ '"' :: ':' :: '"' ::
                (a.balance.data ++ '"' :: ',' ::
                  ('"' :: (['a', 'v', 'a', 'i', 'l', 'a', 'b', 'l', 'e'] ++ '"' :: ':' :: '"' ::
                    (a.available.data ++ '"' :: ',' ::
                      ('"' :: (['h', 'o', 'l', 'd'] ++ '"' :: ':' :: '"' ::
                        (a.hold.data ++ '"' :: rbrace :: [])))))))))))))))
      = some ((String.mk ['i', 'd'], Json.jstr (String.mk a.id.data)) ::
          (String.mk ['c', 'u', 'r', 'r', 'e', 'n', 'c', 'y'], Json.jstr (String.mk a.currency.data)) ::
          (String.mk ['b', 'a', 'l', 'a', 'n', 'c', 'e'], Json.jstr (String.mk a.balance.data)) ::
          (String.mk ['a', 'v', 'a', 'i', 'l', 'a', 'b', 'l', 'e'],
            Json.jstr (String.mk a.available.data)) ::
          [(String.mk ['h', 'o', 'l', 'd'], Json.jstr (String.mk a.hold.data))], []) :=
    parseMembers_cons (f + 1 + 1 + 1 + 1) ['i', 'd'] a.id.data
      _ _ _ (by decide) h1 (by rw [skipWs_quote]; exact m2)
  have hm : marshalChars a = lbrace ::
      ('"' :: (['i', 'd'] ++ '"' :: ':' :: '"' ::
        (a.id.data ++ '"' :: ',' ::
          ('"' :: (['c', 'u', 'r', 'r', 'e', 'n', 'c', 'y'] ++ '"' :: ':' :: '"' ::
            (a.currency.data ++ '"' :: ',' ::
              ('"' :: (['b', 'a', 'l', 'a', 'n', 'c', 'e'] ++ '"' :: ':' :: '"' ::
                (a.balance.data ++ '"' :: ',' ::
                  ('"' :: (['a', 'v', 'a', 'i', 'l', 'a', 'b', 'l', 'e'] ++ '"' :: ':' :: '"' ::
                    (a.available.data ++ '"' :: ',' ::
                      ('"' :: (['h', 'o', 'l', 'd'] ++ '"' :: ':' :: '"' ::
                        (a.hold.data ++ '"' :: rbrace :: []))))))))))))))) := by
    simp [marshalChars, renderStr, escChars_plain _ h1, escChars_plain _ h2,
      escChars_plain _ h3, escChars_plain _ h4, escChars_plain _ h5]
  rw [hm]
  exact parseJson_obj (f + 1 + 1 + 1 + 1 + 1) _ _ _ m1

/-- Unmarshalling the parsed five-field object assigns each field from its
key. -/
lemma unmarshalListAccount_fields (i cu b av ho : String) :
    unmarshalListAccount (Json.jobj
      [("id", Json.jstr i), ("currency", Json.jstr cu), ("balance", Json.jstr b),
       ("available", Json.jstr av), ("hold", Json.jstr ho)])
      = (⟨i, cu, b, av, ho⟩, false) := by
  have e1 : lowerStr "id" = "id" := by decide
  have e2 : lowerStr "currency" = "currency" := by decide
  have e3 : lowerStr "balance" = "balance" := by decide
  have e4 : lowerStr "available" = "available" := by decide
  have e5 : lowerStr "hold" = "hold" := by decide
  simp [unmarshalListAccount, goStrField, jsonFieldLast, e1, e2, e3, e4, e5]

/-- Round trip through the modelled Go marshal and unmarshal for plain field
contents. -/
lemma goDecode_marshal (a : ListAccount)
    (h1 : a.id.data.all plainChar = true) (h2 : a.currency.data.all plainChar = true)
    (h3 : a.balance.data.all plainChar = true) (h4 : a.available.data.all plainChar = true)
    (h5 : a.hold.data.all plainChar = true) :
    goDecodeListAccountOne (marshalListAccount a) = some a := by
  have hd : (marshalListAccount a).data = marshalChars a := rfl
  unfold goDecodeListAccountOne goDecodeJson
  rw [hd]
  have hf : 2 * (marshalChars a).length + 12
      = 2 * (marshalChars a).length + 5 + 1 + 1 + 1 + 1 + 1 + 1 + 1 := by omega
  rw [hf, parseJson_marshal a h1 h2 h3 h4 h5 (2 * (marshalChars a).length + 5)]
  simp [unmarshalListAccount_fields]

/-! ## Concrete fixtures used by witnesses and counterexamples -/

/-- A client with a valid base64 secret (`"c2VjcmV0"` decodes to `secret`). -/
def cOk : Client :=
  ⟨"https://api.pro.coinbase.com", "wss://ws-feed.pro.coinbase.com",
   "my-key", "c2VjcmV0", "my-pass"⟩

/-- A client whose secret is not valid base64, so signing fails with
`InvalidCredential`. -/
def cBad : Client :=
  ⟨"https://api.pro.coinbase.com", "wss://ws-feed.pro.coinbase.com",
   "my-key", "%%%", "my-pass"⟩

/-- A transport answering every request with one fixed response. -/
def constTransport (status : Nat) (body : String) : Transport :=
  fun _ => some ⟨status, body, []⟩

/-- The documented rate limit of the accounts endpoint class (godax.go lines
31-32: 25 requests per second, bursts to 50): a token bucket of burst capacity
50 leaves `50 - n` tokens after `n` consecutive consumptions inside one refill
interval.  This is a spec-side model only; nothing in the code reads it. -/
def specBudgetTokens (callsMade : Nat) : Nat := 50 - callsMade

/-- First ledger page of the pagination scenario: two activities and an
`after` continuation cursor advertised in the response headers. -/
def historyPage1 : Response :=
  ⟨200,
   "[\x7b\"id\":\"a1\",\"amount\":\"0.001\"\x7d,\x7b\"id\":\"a2\",\"amount\":\"0.002\"\x7d]",
   [("CB-AFTER", "cursor-1")]⟩

/-! ## Claims -/

/-- C1: the signing step base64-decodes the secret into the key, signs the
message `timestamp || method || path || body` (in that order), and returns the
base64 of the HMAC-SHA256 digest; for the spec vector - GET
`/accounts/abc123`, timestamp `1700000000`, secret `c2VjcmV0` - the signature
is exactly the base64 of HMAC-SHA256 over `1700000000GET/accounts/abc123`
keyed by the decoded secret, and the same value rides the CB-ACCESS-SIGN
header of the request GetAccount sends. -/
theorem c1_signature_scheme :
    (∀ secret timestamp requestPath method body key,
        base64Decode secret = some key →
        (generateSignature secret timestamp requestPath method body).1
          = base64Encode (hmacSha256 key
              (strBytes (timestamp ++ method ++ requestPath ++ body))))
    ∧ generateSignature "c2VjcmV0" "1700000000" "/accounts/abc123" "GET" ""
        = ("+8+baDJmQe1rJKq4OpKtbYUieecCV0hpAvEivSAIPEI=", none)
    ∧ base64Encode (hmacSha256 (strBytes "secret")
        (strBytes "1700000000GET/accounts/abc123"))
        = "+8+baDJmQe1rJKq4OpKtbYUieecCV0hpAvEivSAIPEI="
    ∧ ((getAccountGo cOk "abc123" 1700000000 (constTransport 200 "null")).sent.map
        (fun r => List.lookup "CB-ACCESS-SIGN" r.headers))
        = [some "+8+baDJmQe1rJKq4OpKtbYUieecCV0hpAvEivSAIPEI="] := by
  refine ⟨?_, by decide, by decide, by decide⟩
  intro secret timestamp requestPath method body key h
  simp [generateSignature, h]

/-- C1 witness: the general conjunct applied at the concrete vector. -/
theorem c1_signature_scheme_witness :
    (generateSignature "c2VjcmV0" "1700000000" "/accounts/abc123" "GET" "").1
      = base64Encode (hmacSha256 (strBytes "secret")
          (strBytes ("1700000000" ++ "GET" ++ "/accounts/abc123" ++ ""))) :=
  c1_signature_scheme.1 "c2VjcmV0" "1700000000" "/accounts/abc123" "GET" ""
    (strBytes "secret") (by decide)

/-! ## Signing helpers and per-operation dispatch lemmas

Signing success depends only on the secret (the base64 decode), never on the
path, so one hypothesis about the secret settles all four operations at once.
-/

lemma gen_of_key (secret ts path m b : String) (key : List Nat)
    (h : base64Decode secret = some key) :
    generateSignature secret ts path m b
      = (base64Encode (hmacSha256 key (strBytes (ts ++ m ++ path ++ b))), none) := by
  simp [generateSignature, h]

lemma gen_of_badkey (secret ts path m b : String)
    (h : base64Decode secret = none) :
    generateSignature secret ts path m b = ("", some GErr.invalidCredential) := by
  simp [generateSignature, h]

/-- The four authentication headers required on a signed request, with the
timestamp header carrying exactly the signed timestamp string. -/
def authHeadersOk (r : Request) (c : Client) (timestamp sig : String) : Prop :=
  List.lookup "CB-ACCESS-KEY" r.headers = some c.key
  ∧ List.lookup "CB-ACCESS-SIGN" r.headers = some sig
  ∧ List.lookup "CB-ACCESS-TIMESTAMP" r.headers = some timestamp
  ∧ List.lookup "CB-ACCESS-PASSPHRASE" r.headers = some c.passphrase

lemma authHeadersOk_setHeaders (c : Client) (url timestamp sig : String) :
    authHeadersOk (setHeaders (newRequest "GET" url) c timestamp sig) c timestamp sig := by
  simp [authHeadersOk, setHeaders, newRequest, List.lookup]

lemma listAccountsGo_sig_err (c : Client) (now : Int) (doFn : Transport)
    (sig : String) (e : GErr)
    (h : generateSignature c.secret (unixTime now) "/accounts" "GET" "" = (sig, some e)) :
    listAccountsGo c now doFn = ⟨c, [], some e, []⟩ := by
  simp only [listAccountsGo]
  rw [h]

lemma getAccountGo_sig_err (c : Client) (accountID : String) (now : Int)
    (doFn : Transport) (sig : String) (e : GErr)
    (h : generateSignature c.secret (unixTime now) ("/accounts/" ++ accountID) "GET" ""
      = (sig, some e)) :
    getAccountGo c accountID now doFn = ⟨c, zeroAccount, some e, []⟩ := by
  simp only [getAccountGo]
  rw [h]

lemma getAccountHistoryGo_sig_err (c : Client) (accountID : String) (now : Int)
    (doFn : Transport) (sig : String) (e : GErr)
    (h : generateSignature c.secret (unixTime now)
        ("/accounts/" ++ accountID ++ "/ledger") "GET" "" = (sig, some e)) :
    getAccountHistoryGo c accountID now doFn = ⟨c, [], some e, []⟩ := by
  simp only [getAccountHistoryGo]
  rw [h]

lemma getAccountHoldsGo_sig_err (c : Client) (accountID : String) (now : Int)
    (doFn : Transport) (sig : String) (e : GErr)
    (h : generateSignature c.secret (unixTime now)
        ("/accounts/" ++ accountID ++ "/holds") "GET" "" = (sig, some e)) :
    getAccountHoldsGo c accountID now doFn = ⟨c, [], some e, []⟩ := by
  simp only [getAccountHoldsGo]
  rw [h]

lemma ListAccountsGo_sig_err (c : Client) (now : Int) (doFn : Transport)
    (sig : String) (e : GErr)
    (h : generateSignature c.secret (unixTime now) "/accounts" "GET" "" = (sig, some e)) :
    ListAccountsGo c now doFn = ⟨c, [], some e, []⟩ := by
  simp only [ListAccountsGo]
  rw [h]

lemma GetAccountGo_sig_err (c : Client) (accountID : String) (now : Int)
    (doFn : Transport) (sig : String) (e : GErr)
    (h : generateSignature c.secret (unixTime now) ("/accounts/" ++ accountID) "GET" ""
      = (sig, some e)) :
    GetAccountGo c accountID now doFn = ⟨c, zeroAccount, some e, []⟩ := by
  simp only [GetAccountGo]
  rw [h]

lemma GetAccountHistoryGo_sig_err (c : Client) (accountID : String) (now : Int)
    (doFn : Transport) (sig : String) (e : GErr)
    (h : generateSignature c.secret (unixTime now)
        ("/accounts/" ++ accountID ++ "/ledger") "GET" "" = (sig, some e)) :
    GetAccountHistoryGo c accountID now doFn = ⟨c, [], some e, []⟩ := by
  simp only [GetAccountHistoryGo]
  rw [h]

lemma GetAccountHoldsGo_sig_err (c : Client) (accountID : String) (now : Int)
    (doFn : Transport) (sig : String) (e : GErr)
    (h : generateSignature c.secret (unixTime now)
        ("/accounts/" ++ accountID ++ "/holds") "GET" "" = (sig, some e)) :
    GetAccountHoldsGo c accountID now doFn = ⟨c, [], some e, []⟩ := by
  simp only [GetAccountHoldsGo]
  rw [h]

lemma ListAccountsGo_ok (c : Client) (now : Int) (doFn : Transport) (sig : String)
    (h : generateSignature c.secret (unixTime now) "/accounts" "GET" "" = (sig, none)) :
    ListAccountsGo c now doFn = listAccountsGo c now doFn := by
  simp only [ListAccountsGo]
  rw [h]

lemma GetAccountGo_ok (c : Client) (accountID : String) (now : Int) (doFn : Transport)
    (sig : String)
    (h : generateSignature c.secret (unixTime now) ("/accounts/" ++ accountID) "GET" ""
      = (sig, none)) :
    GetAccountGo c accountID now doFn = getAccountGo c accountID now doFn := by
  simp only [GetAccountGo]
  rw [h]

lemma GetAccountHistoryGo_ok (c : Client) (accountID : String) (now : Int)
    (doFn : Transport) (sig : String)
    (h : generateSignature c.secret (unixTime now)
        ("/accounts/" ++ accountID ++ "/ledger") "GET" "" = (sig, none)) :
    GetAccountHistoryGo c accountID now doFn = getAccountHistoryGo c accountID now doFn := by
  simp only [GetAccountHistoryGo]
  rw [h]

lemma GetAccountHoldsGo_ok (c : Client) (accountID : String) (now : Int)
    (doFn : Transport) (sig : String)
    (h : generateSignature c.secret (unixTime now)
        ("/accounts/" ++ accountID ++ "/holds") "GET" "" = (sig, none)) :
    GetAccountHoldsGo c accountID now doFn = getAccountHoldsGo c accountID now doFn := by
  simp only [GetAccountHoldsGo]
  rw [h]

lemma listAccountsGo_sent (c : Client) (now : Int) (doFn : Transport) (sig : String)
    (h : generateSignature c.secret (unixTime now) "/accounts" "GET" "" = (sig, none)) :
    (listAccountsGo c now doFn).sent
      = [setHeaders (newRequest "GET" (c.baseRestURL ++ "/accounts")) c (unixTime now) sig] := by
  simp only [listAccountsGo]
  rw [h]
  cases hdo : doFn (setHeaders (newRequest "GET" (c.baseRestURL ++ "/accounts"))
      c (unixTime now) sig) with
  | none => simp [hdo]
  | some res => simp [hdo]

lemma getAccountGo_sent (c : Client) (accountID : String) (now : Int) (doFn : Transport)
    (sig : String)
    (h : generateSignature c.secret (unixTime now) ("/accounts/" ++ accountID) "GET" ""
      = (sig, none)) :
    (getAccountGo c accountID now doFn).sent
      = [setHeaders (newRequest "GET" (c.baseRestURL ++ ("/accounts/" ++ accountID)))
          c (unixTime now) sig] := by
  simp only [getAccountGo]
  rw [h]
  cases hdo : doFn (setHeaders (newRequest "GET" (c.baseRestURL ++ ("/accounts/" ++ accountID)))
      c (unixTime now) sig) with
  | none => simp [hdo]
  | some res => simp [hdo]

lemma getAccountHistoryGo_sent (c : Client) (accountID : String) (now : Int)
    (doFn : Transport) (sig : String)
    (h : generateSignature c.secret (unixTime now)
        ("/accounts/" ++ accountID ++ "/ledger") "GET" "" = (sig, none)) :
    (getAccountHistoryGo c accountID now doFn).sent
      = [setHeaders (newRequest "GET" (c.baseRestURL ++ ("/accounts/" ++ accountID ++ "/ledger")))
          c (unixTime now) sig] := by
  simp only [getAccountHistoryGo]
  rw [h]
  cases hdo : doFn (setHeaders
      (newRequest "GET" (c.baseRestURL ++ ("/accounts/" ++ accountID ++ "/ledger")))
      c (unixTime now) sig) with
  | none => simp [hdo]
  | some res => simp [hdo]

lemma getAccountHoldsGo_sent (c : Client) (accountID : String) (now : Int)
    (doFn : Transport) (sig : String)
    (h : generateSignature c.secret (unixTime now)
        ("/accounts/" ++ accountID ++ "/holds") "GET" "" = (sig, none)) :
    (getAccountHoldsGo c accountID now doFn).sent
      = [setHeaders (newRequest "GET" (c.baseRestURL ++ ("/accounts/" ++ accountID ++ "/holds")))
          c (unixTime now) sig] := by
  simp only [getAccountHoldsGo]
  rw [h]
  cases hdo : doFn (setHeaders
      (newRequest "GET" (c.baseRestURL ++ ("/accounts/" ++ accountID ++ "/holds")))
      c (unixTime now) sig) with
  | none => simp [hdo]
  | some res => simp [hdo]

lemma listAccountsGo_err_ne (c : Client) (now : Int) (doFn : Transport) (sig : String)
    (h : generateSignature c.secret (unixTime now) "/accounts" "GET" "" = (sig, none)) :
    (listAccountsGo c now doFn).err ≠ some GErr.invalidCredential := by
  simp only [listAccountsGo]
  rw [h]
  cases hdo : doFn (setHeaders (newRequest "GET" (c.baseRestURL ++ "/accounts"))
      c (unixTime now) sig) with
  | none => simp [hdo]
  | some res => simp [hdo]

lemma getAccountGo_err_ne (c : Client) (accountID : String) (now : Int)
    (doFn : Transport) (sig : String)
    (h : generateSignature c.secret (unixTime now) ("/accounts/" ++ accountID) "GET" ""
      = (sig, none)) :
    (getAccountGo c accountID now doFn).err ≠ some GErr.invalidCredential := by
  simp only [getAccountGo]
  rw [h]
  cases hdo : doFn (setHeaders (newRequest "GET" (c.baseRestURL ++ ("/accounts/" ++ accountID)))
      c (unixTime now) sig) with
  | none => simp [hdo]
  | some res => simp [hdo]

lemma getAccountHistoryGo_err_ne (c : Client) (accountID : String) (now : Int)
    (doFn : Transport) (sig : String)
    (h : generateSignature c.secret (unixTime now)
        ("/accounts/" ++ accountID ++ "/ledger") "GET" "" = (sig, none)) :
    (getAccountHistoryGo c accountID now doFn).err ≠ some GErr.invalidCredential := by
  simp only [getAccountHistoryGo]
  rw [h]
  cases hdo : doFn (setHeaders
      (newRequest "GET" (c.baseRestURL ++ ("/accounts/" ++ accountID ++ "/ledger")))
      c (unixTime now) sig) with
  | none => simp [hdo]
  | some res => simp [hdo]

lemma getAccountHoldsGo_err_ne (c : Client) (accountID : String) (now : Int)
    (doFn : Transport) (sig : String)
    (h : generateSignature c.secret (unixTime now)
        ("/accounts/" ++ accountID ++ "/holds") "GET" "" = (sig, none)) :
    (getAccountHoldsGo c accountID now doFn).err ≠ some GErr.invalidCredential := by
  simp only [getAccountHoldsGo]
  rw [h]
  cases hdo : doFn (setHeaders
      (newRequest "GET" (c.baseRestURL ++ ("/accounts/" ++ accountID ++ "/holds")))
      c (unixTime now) sig) with
  | none => simp [hdo]
  | some res => simp [hdo]

lemma listAccountsGo_response (c : Client) (now : Int) (res : Response) (sig : String)
    (h : generateSignature c.secret (unixTime now) "/accounts" "GET" "" = (sig, none)) :
    listAccountsGo c now (fun _ => some res)
      = ⟨c, goDecodeListAccounts res.body, none,
          [setHeaders (newRequest "GET" (c.baseRestURL ++ "/accounts")) c (unixTime now) sig]⟩ := by
  simp only [listAccountsGo]
  rw [h]

lemma getAccountGo_response (c : Client) (accountID : String) (now : Int)
    (res : Response) (sig : String)
    (h : generateSignature c.secret (unixTime now) ("/accounts/" ++ accountID) "GET" ""
      = (sig, none)) :
    getAccountGo c accountID now (fun _ => some res)
      = ⟨c, goDecodeAccount res.body, none,
          [setHeaders (newRequest "GET" (c.baseRestURL ++ ("/accounts/" ++ accountID)))
            c (unixTime now) sig]⟩ := by
  simp only [getAccountGo]
  rw [h]

lemma getAccountHistoryGo_response (c : Client) (accountID : String) (now : Int)
    (res : Response) (sig : String)
    (h : generateSignature c.secret (unixTime now)
        ("/accounts/" ++ accountID ++ "/ledger") "GET" "" = (sig, none)) :
    getAccountHistoryGo c accountID now (fun _ => some res)
      = ⟨c, goDecodeActivities res.body, none,
          [setHeaders (newRequest "GET" (c.baseRestURL ++ ("/accounts/" ++ accountID ++ "/ledger")))
            c (unixTime now) sig]⟩ := by
  simp only [getAccountHistoryGo]
  rw [h]

lemma getAccountHoldsGo_response (c : Client) (accountID : String) (now : Int)
    (res : Response) (sig : String)
    (h : generateSignature c.secret (unixTime now)
        ("/accounts/" ++ accountID ++ "/holds") "GET" "" = (sig, none)) :
    getAccountHoldsGo c accountID now (fun _ => some res)
      = ⟨c, goDecodeHolds res.body, none,
          [setHeaders (newRequest "GET" (c.baseRestURL ++ ("/accounts/" ++ accountID ++ "/holds")))
            c (unixTime now) sig]⟩ := by
  simp only [getAccountHoldsGo]
  rw [h]

/-- A ledger body whose first element is well-typed and whose second binds
`id` to a number: Go records an UnmarshalTypeError, keeps both elements (the
second with its zero fields), and the caller that drops the error sees the
partially-populated two-element slice. -/
def partialBody : String :=
  "[\x7b\"id\":\"a1\",\"currency\":\"BTC\",\"balance\":\"1.5\",\"available\":\"1.0\",\"hold\":\"0.5\"\x7d,\x7b\"id\":5\x7d]"

/-- C4: evaluation at the failing input.  Fed a transport whose ledger
response carries two items and an `after` continuation cursor in its headers,
getAccountHistory hands exactly one request to the transport, that request
carries only the four authentication headers (no cursor parameter), and the
returned value is only the first page - the code never requests a second page
even though the response advertises one (the source marks this with a
`TODO: paginate` comment). -/
theorem c4_no_pagination :
    (getAccountHistoryGo cOk "acct-1" 1700000000 (fun _ => some historyPage1)).value
      = [⟨"a1", "", "0.001", "", "", zeroDetail⟩, ⟨"a2", "", "0.002", "", "", zeroDetail⟩]
    ∧ (getAccountHistoryGo cOk "acct-1" 1700000000 (fun _ => some historyPage1)).sent.length = 1
    ∧ ((getAccountHistoryGo cOk "acct-1" 1700000000 (fun _ => some historyPage1)).sent.map
        Request.url) = ["https://api.pro.coinbase.com/accounts/acct-1/ledger"]
    ∧ ((getAccountHistoryGo cOk "acct-1" 1700000000 (fun _ => some historyPage1)).sent.map
        (fun r => r.headers.map Prod.fst))
        = [["CB-ACCESS-KEY", "CB-ACCESS-SIGN", "CB-ACCESS-TIMESTAMP", "CB-ACCESS-PASSPHRASE"]] := by
  decide

/-- C6: once signing succeeds, each of the four account operations hands the
transport exactly one request, and every such constructed request carries all
four authentication headers, with CB-ACCESS-TIMESTAMP equal to the one
timestamp captured at build time - the very string the signature in
CB-ACCESS-SIGN was computed over. -/
theorem c6_headers_and_timestamp (c : Client) (accountID : String) (now : Int)
    (doFn : Transport) (key : List Nat) (h : base64Decode c.secret = some key) :
    (∃ r, (listAccountsGo c now doFn).sent = [r]
      ∧ authHeadersOk r c (unixTime now)
          (generateSignature c.secret (unixTime now) "/accounts" "GET" "").1)
    ∧ (∃ r, (getAccountGo c accountID now doFn).sent = [r]
      ∧ authHeadersOk r c (unixTime now)
          (generateSignature c.secret (unixTime now) ("/accounts/" ++ accountID) "GET" "").1)
    ∧ (∃ r, (getAccountHistoryGo c accountID now doFn).sent = [r]
      ∧ authHeadersOk r c (unixTime now)
          (generateSignature c.secret (unixTime now)
            ("/accounts/" ++ accountID ++ "/ledger") "GET" "").1)
    ∧ (∃ r, (getAccountHoldsGo c accountID now doFn).sent = [r]
      ∧ authHeadersOk r c (unixTime now)
          (generateSignature c.secret (unixTime now)
            ("/accounts/" ++ accountID ++ "/holds") "GET" "").1) := by
  have g1 := gen_of_key c.secret (unixTime now) "/accounts" "GET" "" key h
  have g2 := gen_of_key c.secret (unixTime now) ("/accounts/" ++ accountID) "GET" "" key h
  have g3 := gen_of_key c.secret (unixTime now)
    ("/accounts/" ++ accountID ++ "/ledger") "GET" "" key h
  have g4 := gen_of_key c.secret (unixTime now)
    ("/accounts/" ++ accountID ++ "/holds") "GET" "" key h
  refine ⟨⟨_, listAccountsGo_sent c now doFn _ g1, ?_⟩,
    ⟨_, getAccountGo_sent c accountID now doFn _ g2, ?_⟩,
    ⟨_, getAccountHistoryGo_sent c accountID now doFn _ g3, ?_⟩,
    ⟨_, getAccountHoldsGo_sent c accountID now doFn _ g4, ?_⟩⟩
  · rw [g1]
    exact authHeadersOk_setHeaders c _ (unixTime now) _
  · rw [g2]
    exact authHeadersOk_setHeaders c _ (unixTime now) _
  · rw [g3]
    exact authHeadersOk_setHeaders c _ (unixTime now) _
  · rw [g4]
    exact authHeadersOk_setHeaders c _ (unixTime now) _

/-- C6 witness at a concrete client and transport. -/
theorem c6_headers_and_timestamp_witness :
    (∃ r, (listAccountsGo cOk 1700000000 (constTransport 200 "[]")).sent = [r]
      ∧ authHeadersOk r cOk (unixTime 1700000000)
          (generateSignature cOk.secret (unixTime 1700000000) "/accounts" "GET" "").1)
    ∧ (∃ r, (getAccountGo cOk "abc" 1700000000 (constTransport 200 "[]")).sent = [r]
      ∧ authHeadersOk r cOk (unixTime 1700000000)
          (generateSignature cOk.secret (unixTime 1700000000)
            ("/accounts/" ++ "abc") "GET" "").1)
    ∧ (∃ r, (getAccountHistoryGo cOk "abc" 1700000000 (constTransport 200 "[]")).sent = [r]
      ∧ authHeadersOk r cOk (unixTime 1700000000)
          (generateSignature cOk.secret (unixTime 1700000000)
            ("/accounts/" ++ "abc" ++ "/ledger") "GET" "").1)
    ∧ (∃ r, (getAccountHoldsGo cOk "abc" 1700000000 (constTransport 200 "[]")).sent = [r]
      ∧ authHeadersOk r cOk (unixTime 1700000000)
          (generateSignature cOk.secret (unixTime 1700000000)
            ("/accounts/" ++ "abc" ++ "/holds") "GET" "").1) :=
  c6_headers_and_timestamp cOk "abc" 1700000000 (constTransport 200 "[]")
    (strBytes "secret") (by decide)

lemma all_decimal_plain (l : List Char) (h : l.all decimalChar = true) :
    l.all plainChar = true := by
  simp only [List.all_eq_true] at h ⊢
  intro c hc
  exact decimalChar_plain c (h c hc)

/-- C8: for a ListAccount whose monetary fields are decimal strings (and whose
id and currency need no JSON escaping), Go-style JSON encoding followed by
decoding reproduces the struct exactly - in particular the balance, available
and hold strings come back byte for byte, never passing through any numeric
type. -/
theorem c8_roundtrip (a : ListAccount)
    (hid : plainStr a.id = true) (hcur : plainStr a.currency = true)
    (hbal : decimalStr a.balance = true) (hav : decimalStr a.available = true)
    (hho : decimalStr a.hold = true) :
    goDecodeListAccountOne (marshalListAccount a) = some a :=
  goDecode_marshal a hid hcur (all_decimal_plain _ hbal) (all_decimal_plain _ hav)
    (all_decimal_plain _ hho)

/-- C8 witness at a concrete account with high-precision decimal strings. -/
theorem c8_roundtrip_witness :
    decimalStr "0.0000000000000000" = true
    ∧ goDecodeListAccountOne (marshalListAccount
        ⟨"71452118-efc7-4cc4", "BTC", "0.0000000000000000", "1.50", "9999999999.0001"⟩)
      = some ⟨"71452118-efc7-4cc4", "BTC", "0.0000000000000000", "1.50", "9999999999.0001"⟩ :=
  ⟨by decide,
   c8_roundtrip ⟨"71452118-efc7-4cc4", "BTC", "0.0000000000000000", "1.50", "9999999999.0001"⟩
     (by decide) (by decide) (by decide) (by decide) (by decide)⟩

lemma listAccountsGo_client (c : Client) (now : Int) (doFn : Transport) :
    (listAccountsGo c now doFn).client = c := by
  simp only [listAccountsGo]
  cases hgen : generateSignature c.secret (unixTime now) "/accounts" "GET" "" with
  | mk sig e =>
    cases e with
    | some e0 => simp [hgen]
    | none =>
        cases hdo : doFn (setHeaders (newRequest "GET" (c.baseRestURL ++ "/accounts"))
            c (unixTime now) sig) with
        | none => simp [hgen, hdo]
        | some res => simp [hgen, hdo]

lemma getAccountGo_client (c : Client) (accountID : String) (now : Int) (doFn : Transport) :
    (getAccountGo c accountID now doFn).client = c := by
  simp only [getAccountGo]
  cases hgen : generateSignature c.secret (unixTime now) ("/accounts/" ++ accountID) "GET" "" with
  | mk sig e =>
    cases e with
    | some e0 => simp [hgen]
    | none =>
        cases hdo : doFn (setHeaders (newRequest "GET" (c.baseRestURL ++ ("/accounts/" ++ accountID)))
            c (unixTime now) sig) with
        | none => simp [hgen, hdo]
        | some res => simp [hgen, hdo]

lemma getAccountHistoryGo_client (c : Client) (accountID : String) (now : Int) (doFn : Transport) :
    (getAccountHistoryGo c accountID now doFn).client = c := by
  simp only [getAccountHistoryGo]
  cases hgen : generateSignature c.secret (unixTime now)
      ("/accounts/" ++ accountID ++ "/ledger") "GET" "" with
  | mk sig e =>
    cases e with
    | some e0 => simp [hgen]
    | none =>
        cases hdo : doFn (setHeaders
            (newRequest "GET" (c.baseRestURL ++ ("/accounts/" ++ accountID ++ "/ledger")))
            c (unixTime now) sig) with
        | none => simp [hgen, hdo]
        | some res => simp [hgen, hdo]

lemma getAccountHoldsGo_client (c : Client) (accountID : String) (now : Int) (doFn : Transport) :
    (getAccountHoldsGo c accountID now doFn).client = c := by
  simp only [getAccountHoldsGo]
  cases hgen : generateSignature c.secret (unixTime now)
      ("/accounts/" ++ accountID ++ "/holds") "GET" "" with
  | mk sig e =>
    cases e with
    | some e0 => simp [hgen]
    | none =>
        cases hdo : doFn (setHeaders
            (newRequest "GET" (c.baseRestURL ++ ("/accounts/" ++ accountID ++ "/holds")))
            c (unixTime now) sig) with
        | none => simp [hgen, hdo]
        | some res => simp [hgen, hdo]

lemma ListAccountsGo_client (c : Client) (now : Int) (doFn : Transport) :
    (ListAccountsGo c now doFn).client = c := by
  simp only [ListAccountsGo]
  cases hgen : generateSignature c.secret (unixTime now) "/accounts" "GET" "" with
  | mk sig e =>
    cases e with
    | some e0 => simp [hgen]
    | none => simp [hgen, listAccountsGo_client c now doFn]

lemma GetAccountGo_client (c : Client) (accountID : String) (now : Int) (doFn : Transport) :
    (GetAccountGo c accountID now doFn).client = c := by
  simp only [GetAccountGo]
  cases hgen : generateSignature c.secret (unixTime now) ("/accounts/" ++ accountID) "GET" "" with
  | mk sig e =>
    cases e with
    | some e0 => simp [hgen]
    | none => simp [hgen, getAccountGo_client c accountID now doFn]

lemma GetAccountHistoryGo_client (c : Client) (accountID : String) (now : Int) (doFn : Transport) :
    (GetAccountHistoryGo c accountID now doFn).client = c := by
  simp only [GetAccountHistoryGo]
  cases hgen : generateSignature c.secret (unixTime now)
      ("/accounts/" ++ accountID ++ "/ledger") "GET" "" with
  | mk sig e =>
    cases e with
    | some e0 => simp [hgen]
    | none => simp [hgen, getAccountHistoryGo_client c accountID now doFn]

lemma GetAccountHoldsGo_client (c : Client) (accountID : String) (now : Int) (doFn : Transport) :
    (GetAccountHoldsGo c accountID now doFn).client = c := by
  simp only [GetAccountHoldsGo]
  cases hgen : generateSignature c.secret (unixTime now)
      ("/accounts/" ++ accountID ++ "/holds") "GET" "" with
  | mk sig e =>
    cases e with
    | some e0 => simp [hgen]
    | none => simp [hgen, getAccountHoldsGo_client c accountID now doFn]

/-- C9: no public operation mutates the client: after ListAccounts,
GetAccount, GetAccountHistory or GetAccountHolds the credential and
configuration fields are exactly those established at construction. -/
theorem c9_client_immutable (c : Client) (accountID : String) (now : Int)
    (doFn : Transport) :
    (ListAccountsGo c now doFn).client = c
    ∧ (GetAccountGo c accountID now doFn).client = c
    ∧ (GetAccountHistoryGo c accountID now doFn).client = c
    ∧ (GetAccountHoldsGo c accountID now doFn).client = c :=
  ⟨ListAccountsGo_client c now doFn, GetAccountGo_client c accountID now doFn,
   GetAccountHistoryGo_client c accountID now doFn,
   GetAccountHoldsGo_client c accountID now doFn⟩

lemma listAccountsGo_err_zero (c : Client) (now : Int) (doFn : Transport) :
    (listAccountsGo c now doFn).err ≠ none → (listAccountsGo c now doFn).value = [] := by
  intro h
  simp only [listAccountsGo] at h ⊢
  cases hgen : generateSignature c.secret (unixTime now) "/accounts" "GET" "" with
  | mk sig e =>
    cases e with
    | some e0 => simp [hgen]
    | none =>
        cases hdo : doFn (setHeaders (newRequest "GET" (c.baseRestURL ++ "/accounts"))
            c (unixTime now) sig) with
        | none => simp [hgen, hdo]
        | some res =>
            simp [hgen, hdo] at h

lemma getAccountGo_err_zero (c : Client) (accountID : String) (now : Int) (doFn : Transport) :
    (getAccountGo c accountID now doFn).err ≠ none →
      (getAccountGo c accountID now doFn).value = zeroAccount := by
  intro h
  simp only [getAccountGo] at h ⊢
  cases hgen : generateSignature c.secret (unixTime now) ("/accounts/" ++ accountID) "GET" "" with
  | mk sig e =>
    cases e with
    | some e0 => simp [hgen]
    | none =>
        cases hdo : doFn (setHeaders (newRequest "GET" (c.baseRestURL ++ ("/accounts/" ++ accountID)))
            c (unixTime now) sig) with
        | none => simp [hgen, hdo]
        | some res =>
            simp [hgen, hdo] at h

lemma getAccountHistoryGo_err_zero (c : Client) (accountID : String) (now : Int)
    (doFn : Transport) :
    (getAccountHistoryGo c accountID now doFn).err ≠ none →
      (getAccountHistoryGo c accountID now doFn).value = [] := by
  intro h
  simp only [getAccountHistoryGo] at h ⊢
  cases hgen : generateSignature c.secret (unixTime now)
      ("/accounts/" ++ accountID ++ "/ledger") "GET" "" with
  | mk sig e =>
    cases e with
    | some e0 => simp [hgen]
    | none =>
        cases hdo : doFn (setHeaders
            (newRequest "GET" (c.baseRestURL ++ ("/accounts/" ++ accountID ++ "/ledger")))
            c (unixTime now) sig) with
        | none => simp [hgen, hdo]
        | some res =>
            simp [hgen, hdo] at h

lemma getAccountHoldsGo_err_zero (c : Client) (accountID : String) (now : Int)
    (doFn : Transport) :
    (getAccountHoldsGo c accountID now doFn).err ≠ none →
      (getAccountHoldsGo c accountID now doFn).value = [] := by
  intro h
  simp only [getAccountHoldsGo] at h ⊢
  cases hgen : generateSignature c.secret (unixTime now)
      ("/accounts/" ++ accountID ++ "/holds") "GET" "" with
  | mk sig e =>
    cases e with
    | some e0 => simp [hgen]
    | none =>
        cases hdo : doFn (setHeaders
            (newRequest "GET" (c.baseRestURL ++ ("/accounts/" ++ accountID ++ "/holds")))
            c (unixTime now) sig) with
        | none => simp [hgen, hdo]
        | some res =>
            simp [hgen, hdo] at h

lemma ListAccountsGo_err_zero (c : Client) (now : Int) (doFn : Transport) :
    (ListAccountsGo c now doFn).err ≠ none → (ListAccountsGo c now doFn).value = [] := by
  intro h
  simp only [ListAccountsGo] at h ⊢
  cases hgen : generateSignature c.secret (unixTime now) "/accounts" "GET" "" with
  | mk sig e =>
    cases e with
    | some e0 => simp [hgen]
    | none =>
        simp only [hgen] at h ⊢
        exact listAccountsGo_err_zero c now doFn h

lemma GetAccountGo_err_zero (c : Client) (accountID : String) (now : Int) (doFn : Transport) :
    (GetAccountGo c accountID now doFn).err ≠ none →
      (GetAccountGo c accountID now doFn).value = zeroAccount := by
  intro h
  simp only [GetAccountGo] at h ⊢
  cases hgen : generateSignature c.secret (unixTime now) ("/accounts/" ++ accountID) "GET" "" with
  | mk sig e =>
    cases e with
    | some e0 => simp [hgen]
    | none =>
        simp only [hgen] at h ⊢
        exact getAccountGo_err_zero c accountID now doFn h

lemma GetAccountHistoryGo_err_zero (c : Client) (accountID : String) (now : Int)
    (doFn : Transport) :
    (GetAccountHistoryGo c accountID now doFn).err ≠ none →
      (GetAccountHistoryGo c accountID now doFn).value = [] := by
  intro h
  simp only [GetAccountHistoryGo] at h ⊢
  cases hgen : generateSignature c.secret (unixTime now)
      ("/accounts/" ++ accountID ++ "/ledger") "GET" "" with
  | mk sig e =>
    cases e with
    | some e0 => simp [hgen]
    | none =>
        simp only [hgen] at h ⊢
        exact getAccountHistoryGo_err_zero c accountID now doFn h

lemma GetAccountHoldsGo_err_zero (c : Client) (accountID : String) (now : Int)
    (doFn : Transport) :
    (GetAccountHoldsGo c accountID now doFn).err ≠ none →
      (GetAccountHoldsGo c accountID now doFn).value = [] := by
  intro h
  simp only [GetAccountHoldsGo] at h ⊢
  cases hgen : generateSignature c.secret (unixTime now)
      ("/accounts/" ++ accountID ++ "/holds") "GET" "" with
  | mk sig e =>
    cases e with
    | some e0 => simp [hgen]
    | none =>
        simp only [hgen] at h ⊢
        exact getAccountHoldsGo_err_zero c accountID now doFn h

/-- C10: whenever a public operation returns a non-nil error, the accompanying
result is exactly the zero value of its result type: the empty list for the
list operations and the zero-valued struct for GetAccount. -/
theorem c10_zero_value_with_error (c : Client) (accountID : String) (now : Int)
    (doFn : Transport) :
    ((ListAccountsGo c now doFn).err ≠ none → (ListAccountsGo c now doFn).value = [])
    ∧ ((GetAccountGo c accountID now doFn).err ≠ none →
        (GetAccountGo c accountID now doFn).value = zeroAccount)
    ∧ ((GetAccountHistoryGo c accountID now doFn).err ≠ none →
        (GetAccountHistoryGo c accountID now doFn).value = [])
    ∧ ((GetAccountHoldsGo c accountID now doFn).err ≠ none →
        (GetAccountHoldsGo c accountID now doFn).value = []) :=
  ⟨ListAccountsGo_err_zero c now doFn, GetAccountGo_err_zero c accountID now doFn,
   GetAccountHistoryGo_err_zero c accountID now doFn,
   GetAccountHoldsGo_err_zero c accountID now doFn⟩

/-- C10 witness: with an undecodable secret every operation errors, and each
result is its zero value. -/
theorem c10_zero_value_with_error_witness :
    (ListAccountsGo cBad 0 (constTransport 200 "[]")).value = []
    ∧ (GetAccountGo cBad "x" 0 (constTransport 200 "[]")).value = zeroAccount
    ∧ (GetAccountHistoryGo cBad "x" 0 (constTransport 200 "[]")).value = []
    ∧ (GetAccountHoldsGo cBad "x" 0 (constTransport 200 "[]")).value = [] := by
  obtain ⟨h1, h2, h3, h4⟩ := c10_zero_value_with_error cBad "x" 0 (constTransport 200 "[]")
  exact ⟨h1 (by decide), h2 (by decide), h3 (by decide), h4 (by decide)⟩
